import Mathlib

/-!
# Verification of the zustform core against its specification

This file embeds the core of the `zustform` repository (a reactive form-state
container written in TypeScript) into Lean 4 and settles the frozen claims
about it.  The embedding follows the source files:

* `src/core/path.ts`      — dot-notation path utilities (`getPath`, `setPath`,
  `deletePath`),
* `src/core/store.ts`     — the field registry (`registerField`,
  `setFieldErrors`, `updateFormValid`, `setNestedValue`, `deleteNestedValue`,
  `getNestedValue`),
* `src/core/validation.ts`— the validation engine (`validateField`,
  `validateBuiltinRule`, `isFormValid`),
* `src/core/createForm.ts`— the form-instance façade (`getSubmitValues`, its
  local `deleteNestedValue` helper, `getFieldValue`, `validate`, `submit`),
* `src/core/array.ts`     — the pure array operations (`moveItem`,
  `insertItem`, `removeItem`, `swapItems`, `updateItem`).

JavaScript values are modelled by the inductive `JSVal`; `undefined` and
`null` are ordinary values, property access on arrays uses canonical numeric
keys, and strict-mode `TypeError` (assignment to a property of a primitive)
is modelled by `Except Unit`.  Numbers are modelled as integers, which covers
every value the claims exercise.
-/

namespace ZustForm

/-- Model of a JavaScript value as manipulated by the form core: `undefined`,
`null`, booleans, (integer) numbers, strings, arrays, and plain objects
(association lists of own enumerable string keys, in insertion order,
without duplicate keys). -/
inductive JSVal where
  | vUndef : JSVal
  | vNull : JSVal
  | vBool : Bool → JSVal
  | vNum : Int → JSVal
  | vStr : String → JSVal
  | vArr : List JSVal → JSVal
  | vObj : List (String × JSVal) → JSVal

namespace JSVal

/-- `v === undefined` in JavaScript. -/
def isUndef : JSVal → Bool
  | vUndef => true
  | _ => false

/-- `v == null` in JavaScript: true for both `null` and `undefined`. -/
def isNullish : JSVal → Bool
  | vUndef => true
  | vNull => true
  | _ => false

/-- `typeof v === 'string'`. -/
def isStringV : JSVal → Bool
  | vStr _ => true
  | _ => false

/-- `typeof v === 'number'`. -/
def isNumberV : JSVal → Bool
  | vNum _ => true
  | _ => false

/-- `typeof v === 'object' && v !== null` in JavaScript: arrays and plain
objects (the only traversable containers in the model). -/
def isContainer : JSVal → Bool
  | vArr _ => true
  | vObj _ => true
  | _ => false

end JSVal

open JSVal

/-- Base-10 value of a digit list (most significant first). -/
def digitsVal (cs : List Char) : Nat :=
  cs.foldl (fun n c => n * 10 + (c.toNat - '0'.toNat)) 0

/-- Canonical array-index parse: a string is an array index for property
access exactly when it is a canonical base-10 numeral (digits only, no
leading zero except `"0"` itself). -/
def parseIndex (s : String) : Option Nat :=
  let cs := s.toList
  if cs ≠ [] ∧ cs.all Char.isDigit ∧ (cs = ['0'] ∨ cs.head? ≠ some '0') then
    some (digitsVal cs)
  else
    none

/-- `parseInt(s, 10)`: parses the longest leading digit prefix (no sign
handling needed by the embedded code paths); `none` models `NaN`. -/
def parseIntJS (s : String) : Option Int :=
  let digits := s.toList.takeWhile Char.isDigit
  if digits = [] then none
  else some (digitsVal digits)

/-- `s.split(sep)` for a single-character separator, over the character
list (JavaScript semantics: the empty string splits to `[""]`, separators
at the ends produce empty segments). -/
def splitOnCharAux (sep : Char) : List Char → List Char → List String
  | [], acc => [String.mk acc.reverse]
  | c :: rest, acc =>
    if c = sep then String.mk acc.reverse :: splitOnCharAux sep rest []
    else splitOnCharAux sep rest (c :: acc)

/-- `s.split(sep)` for a single-character separator. -/
def splitOnChar (sep : Char) (s : String) : List String :=
  splitOnCharAux sep s.toList []

/-- `path.split('.')`. -/
def splitOnDot (s : String) : List String :=
  splitOnChar '.' s

/-- Whether a key is present as an own property (`key in obj` for objects). -/
def objHasKey (fields : List (String × JSVal)) (key : String) : Bool :=
  fields.any (fun kv => kv.1 = key)

/-- Read an object's own property; a missing key reads as `undefined`. -/
def objGet (fields : List (String × JSVal)) (key : String) : JSVal :=
  match fields.find? (fun kv => kv.1 = key) with
  | some kv => kv.2
  | none => vUndef

/-- Write an object property: replace the first binding of `key`, or append
a new binding (JavaScript preserves insertion order). -/
def objSet (fields : List (String × JSVal)) (key : String) (v : JSVal) :
    List (String × JSVal) :=
  match fields with
  | [] => [(key, v)]
  | kv :: rest =>
    if kv.1 = key then (key, v) :: rest else kv :: objSet rest key v

/-- `delete obj[key]` on a plain object: remove the binding of `key`. -/
def objRemoveKey (fields : List (String × JSVal)) (key : String) :
    List (String × JSVal) :=
  fields.filter (fun kv => kv.1 ≠ key)

/-- Read an array element by index, `undefined` out of range (holes read as
`undefined` as well). -/
def arrGet (items : List JSVal) (i : Nat) : JSVal :=
  match items.get? i with
  | some v => v
  | none => vUndef

/-- Assign an array element by index: in-range replaces, index = length
appends, larger indices pad with holes (which read as `undefined`). -/
def arrSet (items : List JSVal) (i : Nat) (v : JSVal) : List JSVal :=
  if i < items.length then items.set i v
  else items ++ List.replicate (i - items.length) vUndef ++ [v]

/-- Property read `container[segment]` for the two container shapes.
On an array only a canonical numeric key reads an element; everything else
reads `undefined` (string properties of arrays are not modelled — the form
core never stores them). Primitives read `undefined` here; the embedded
functions always test `typeof === 'object'` before reading. -/
def jsGetProp : JSVal → String → JSVal
  | vObj fields, key => objGet fields key
  | vArr items, key =>
    match parseIndex key with
    | some i => arrGet items i
    | none => vUndef
  | _, _ => vUndef

/-- `key in container`. On arrays, an index is present when in range. -/
def jsHasProp : JSVal → String → Bool
  | vObj fields, key => objHasKey fields key
  | vArr items, key =>
    match parseIndex key with
    | some i => i < items.length
    | none => false
  | _, _ => false

/-- Property write `container[segment] = v` (non-index writes on arrays are
not modelled — unexercised by the form core). Writing to a primitive is a
strict-mode `TypeError`; callers that can reach that case go through
`Except`. -/
def jsSetProp : JSVal → String → JSVal → JSVal
  | vObj fields, key, v => vObj (objSet fields key v)
  | vArr items, key, v =>
    match parseIndex key with
    | some i => vArr (arrSet items i v)
    | none => vArr items
  | other, _, _ => other

/-- `delete container[segment]`: on objects removes the key; on arrays an
in-range index becomes a hole (reads as `undefined`, length unchanged);
anything else is a no-op. -/
def jsDeleteProp : JSVal → String → JSVal
  | vObj fields, key => vObj (objRemoveKey fields key)
  | vArr items, key =>
    match parseIndex key with
    | some i => if i < items.length then vArr (items.set i vUndef) else vArr items
    | none => vArr items
  | other, _ => other

/-- The regex test `/^\d+$/.test(s)` used by `setPath`/`setNestedValue` to
decide whether a missing intermediate container should be an array. Unlike
a canonical index it accepts leading zeros. -/
def isAllDigits (s : String) : Bool :=
  s ≠ "" ∧ s.toList.all Char.isDigit

/-! ## Path utilities (`src/core/path.ts`) -/

/-- `parsePath` (path.ts): empty string parses to no segments, otherwise
split on `.`. -/
def parsePath (path : String) : List String :=
  if path = "" then [] else splitOnDot path

/-- Traversal loop shared by `getPath` (path.ts) and `getNestedValue`
(store.ts), whose source bodies are identical: nullish short-circuits to
`undefined`, containers are read into, a primitive met before the path ends
yields `undefined`. -/
def getPathGo : JSVal → List String → JSVal
  | cur, [] => cur
  | cur, seg :: rest =>
    if cur.isNullish then vUndef
    else if cur.isContainer then getPathGo (jsGetProp cur seg) rest
    else vUndef

/-- `getPath` (path.ts lines 187-205). -/
def getPath (obj : JSVal) (path : String) : JSVal :=
  if path = "" then obj
  else if obj.isNullish then vUndef
  else getPathGo obj (parsePath path)

/-- Recursive rendering of the `setPath` loop (path.ts lines 222-252), also
the body of `setNestedValue` (store.ts lines 243-271), whose source is
line-for-line identical.  For each intermediate segment: if the segment is
missing or nullish, a fresh `[]`/`{}` is created (array iff the next segment
matches `/^\d+$/`); then `current = current[segment]`, and if that child is
a primitive the source executes `current[segment] = {}` ON THE PRIMITIVE,
which in strict mode (all TS modules) throws `TypeError` — modelled as
`Except.error ()`.  The final assignment on a non-container also throws. -/
def setPathGo : JSVal → List String → JSVal → Except Unit JSVal
  | cur, [], _ => .ok cur
  | cur, seg :: rest, v =>
    match rest with
    | [] =>
      if cur.isContainer then .ok (jsSetProp cur seg v) else .error ()
    | next :: _ =>
      if cur.isContainer then
        let cur1 :=
          if ¬ jsHasProp cur seg ∨ (jsGetProp cur seg).isNullish then
            jsSetProp cur seg (if isAllDigits next then vArr [] else vObj [])
          else cur
        let child := jsGetProp cur1 seg
        if child.isContainer then
          match setPathGo child rest v with
          | .ok child' => .ok (jsSetProp cur1 seg child')
          | .error e => .error e
        else .error ()
      else .error ()

/-- `setPath` (path.ts lines 222-252). -/
def setPath (obj : JSVal) (path : String) (v : JSVal) : Except Unit JSVal :=
  if path = "" then .ok obj else setPathGo obj (parsePath path) v

/-- Recursive rendering of the `deletePath` loop (path.ts lines 267-297):
navigate to the parent of the terminal segment bailing out (returning
`false`, no mutation) whenever a non-container is met; at the parent,
`if (lastSegment in parent) { delete parent[lastSegment]; return true }`.
Note the terminal removal is the plain `delete` operator for arrays too
(leaving a hole), not a splice. -/
def deletePathGo : JSVal → List String → Bool × JSVal
  | obj, [] => (false, obj)
  | obj, seg :: rest =>
    match rest with
    | [] =>
      if obj.isContainer then
        if jsHasProp obj seg then (true, jsDeleteProp obj seg) else (false, obj)
      else (false, obj)
    | _ :: _ =>
      if obj.isContainer then
        match deletePathGo (jsGetProp obj seg) rest with
        | (true, child') => (true, jsSetProp obj seg child')
        | (false, _) => (false, obj)
      else (false, obj)

/-- `deletePath` (path.ts lines 267-297): returns whether a removal
occurred, paired with the updated object (the source mutates in place). -/
def deletePath (obj : JSVal) (path : String) : Bool × JSVal :=
  if path = "" then (false, obj) else deletePathGo obj (parsePath path)

/-! ## Store-internal nested-value helpers (`src/core/store.ts`) -/

/-- `getNestedValue` (store.ts lines 305-322); body identical to `getPath`. -/
def getNestedValue (obj : JSVal) (path : String) : JSVal :=
  if path = "" then obj
  else if obj.isNullish then vUndef
  else getPathGo obj (splitOnDot path)

/-- `setNestedValue` (store.ts lines 243-271); body identical to `setPath`
(including the strict-mode `TypeError` on a primitive intermediate). The
source returns `void`; the model returns the updated tree. -/
def setNestedValue (obj : JSVal) (path : String) (v : JSVal) :
    Except Unit JSVal :=
  if path = "" then .ok obj else setPathGo obj (splitOnDot path) v

/-- Recursive rendering of `deleteNestedValue` (store.ts lines 276-300):
same navigation as `deletePath`, but the terminal step splices arrays
(`parseInt` the last segment, in-range → `splice(index, 1)`, shifting later
indices down) and unconditionally `delete`s object keys; returns nothing. -/
def deleteNestedGo : JSVal → List String → JSVal
  | obj, [] => obj
  | obj, seg :: rest =>
    match rest with
    | [] =>
      match obj with
      | vArr items =>
        match parseIntJS seg with
        | some i =>
          if 0 ≤ i ∧ i.toNat < items.length then vArr (items.eraseIdx i.toNat)
          else vArr items
        | none => vArr items
      | vObj fields => vObj (objRemoveKey fields seg)
      | other => other
    | _ :: _ =>
      if obj.isContainer then
        let child := jsGetProp obj seg
        if child.isContainer then jsSetProp obj seg (deleteNestedGo child rest)
        else obj
      else obj

/-- `deleteNestedValue` (store.ts lines 276-300). -/
def deleteNestedValue (obj : JSVal) (path : String) : JSVal :=
  if path = "" then obj else deleteNestedGo obj (splitOnDot path)

/-! ## Form-instance local helpers (`src/core/createForm.ts`) -/

/-- The local `deleteNestedValue` helper of createForm.ts (lines 329-349).
In the source, `current` starts at `obj` and is NEVER advanced: the only
reassignment (`current = obj`) sits in the `current == null` branch, and the
`Array.isArray` branch is unreachable because arrays are `typeof 'object'`.
So every loop iteration performs `delete obj[part]` at the top level of the
same object. -/
def deleteNestedValueForm (obj : JSVal) (path : String) : JSVal :=
  if path = "" then obj
  else (splitOnDot path).foldl (fun cur part =>
    if cur.isNullish then cur
    else if cur.isContainer then jsDeleteProp cur part
    else cur) obj

/-- `getFieldValue` of createForm.ts (lines 157-175).  Quirk kept from the
source: when traversal meets a non-null primitive, neither branch of the
loop body applies (`Array.isArray` is dead code), so the loop falls through
without descending and the primitive itself is eventually returned. -/
def formGetFieldValueGo : JSVal → List String → JSVal
  | cur, [] => cur
  | cur, part :: rest =>
    if cur.isNullish then vUndef
    else if cur.isContainer then formGetFieldValueGo (jsGetProp cur part) rest
    else formGetFieldValueGo cur rest

/-- `getFieldValue` (createForm.ts lines 157-175): `null`/empty path returns
the whole values tree. -/
def formGetFieldValue (values : JSVal) (path : Option String) : JSVal :=
  match path with
  | none => values
  | some p => if p = "" then values else formGetFieldValueGo values (splitOnDot p)

/-! ## Validation engine (`src/core/validation.ts`) -/

/-- Fuel-indexed rendering of `String(value)`: primitives render as in JS,
arrays join their elements with `,`, plain objects render as
`"[object Object]"`.  The fuel only bounds ARRAY NESTING depth (the value
is matched first, so it never interferes with non-array shapes). -/
def jsToStringFuel (fuel : Nat) : JSVal → String
  | vUndef => "undefined"
  | vNull => "null"
  | vBool b => if b then "true" else "false"
  | vNum n => toString n
  | vStr s => s
  | vObj _ => "[object Object]"
  | vArr items =>
    match fuel with
    | 0 => ""
    | f + 1 => String.intercalate "," (items.map (jsToStringFuel f))

/-- `String(value)` as applied by the rule checks; exact for every value of
array-nesting depth below 64, which covers all values the claims evaluate. -/
def jsToString (v : JSVal) : String :=
  jsToStringFuel 64 v

/-- A value's emptiness for the `required`/skip checks (validation.ts lines
61 and 66): `value == null || value === '' || value === undefined`. -/
def isEmptyJS : JSVal → Bool
  | vUndef => true
  | vNull => true
  | vStr s => s = ""
  | _ => false

/-- `rule.message || default`: JS `||` falls back on an absent OR empty
custom message. -/
def msgOr (message : Option String) (deflt : String) : String :=
  match message with
  | some m => if m = "" then deflt else m
  | none => deflt

/-- The email regex `/^[^\s@]+@[^\s@]+\.[^\s@]+$/` of validation.ts line 79:
exactly one `@`, with a non-empty whitespace-free part before it, and after
it a whitespace-free part containing a `.` that has at least one character
on each side. -/
def emailLike (s : String) : Bool :=
  match splitOnChar '@' s with
  | [user, host] =>
    user ≠ "" ∧ user.toList.all (fun c => ¬ c.isWhitespace) ∧
    host.toList.all (fun c => ¬ c.isWhitespace) ∧
    ((host.toList.drop 1).dropLast).contains '.'
  | _ => false

/-- The url regex `/^https?:\/\/.*/` of validation.ts line 82. -/
def urlLike (s : String) : Bool :=
  s.toList.take 7 = "http://".toList || s.toList.take 8 = "https://".toList

/-- The in-memory rule type names (validation.ts / types.ts). -/
inductive RuleType where
  | string | number | email | url
  deriving DecidableEq, Repr

/-- Outcome of invoking a custom validator once (a resolved async validator
behaves like the corresponding synchronous return): `ok r` models a normal
return (`some s` an error string, `none` `undefined`), `threw m` models a
throw/rejection (`some m` an `Error` carrying message `m`, `none` a
non-`Error` value). -/
inductive ValidatorResult where
  | ok (result : Option String)
  | threw (errMessage : Option String)

/-- A validation rule (types.ts `ValidationRule`): built-in constraints plus
an optional custom validator.  The RegExp `pattern` is modelled by its
`.test` function on the stringified value. -/
structure Rule where
  type? : Option RuleType := none
  required : Bool := false
  pattern? : Option (String → Bool) := none
  min? : Option Int := none
  max? : Option Int := none
  len? : Option Int := none
  message? : Option String := none
  validator? : Option (JSVal → ValidatorResult) := none

/-- The type check of `validateBuiltinRule` (validation.ts lines 73-84):
four successive guarded returns, at most one of which can fire. -/
def typeFail (value : JSVal) (rule : Rule) : Option String :=
  match rule.type? with
  | some .string =>
    if value.isStringV then none
    else some (msgOr rule.message? "This field must be a string")
  | some .number =>
    if value.isNumberV then none
    else some (msgOr rule.message? "This field must be a number")
  | some .email =>
    if emailLike (jsToString value) then none
    else some (msgOr rule.message? "This field must be a valid email")
  | some .url =>
    if urlLike (jsToString value) then none
    else some (msgOr rule.message? "This field must be a valid URL")
  | none => none

/-- The `min` length check (validation.ts lines 88-90). -/
def minFail (strValue : String) (rule : Rule) : Option String :=
  match rule.min? with
  | some m =>
    if (strValue.length : Int) < m then
      some (msgOr rule.message? ("This field must be at least " ++ toString m ++ " characters"))
    else none
  | none => none

/-- The `max` length check (validation.ts lines 91-93). -/
def maxFail (strValue : String) (rule : Rule) : Option String :=
  match rule.max? with
  | some m =>
    if (strValue.length : Int) > m then
      some (msgOr rule.message? ("This field must be at most " ++ toString m ++ " characters"))
    else none
  | none => none

/-- The `len` length check (validation.ts lines 94-96). -/
def lenFail (strValue : String) (rule : Rule) : Option String :=
  match rule.len? with
  | some m =>
    if (strValue.length : Int) ≠ m then
      some (msgOr rule.message? ("This field must be exactly " ++ toString m ++ " characters"))
    else none
  | none => none

/-- The `pattern` check (validation.ts lines 99-101). -/
def patternFail (strValue : String) (rule : Rule) : Option String :=
  match rule.pattern? with
  | some test => if test strValue then none else some (msgOr rule.message? "This field format is invalid")
  | none => none

/-- `validateBuiltinRule` (validation.ts lines 57-104): `required` first
(short-circuiting the rule), empty-and-not-required passes, then type, min,
max, len, pattern — RETURNING AT THE FIRST FAILING CHECK (each check is a
guarded `return`), so a rule contributes at most one message. -/
def validateBuiltinRule (value : JSVal) (rule : Rule) : Option String :=
  if rule.required ∧ isEmptyJS value then
    some (msgOr rule.message? "This field is required")
  else if isEmptyJS value ∧ ¬ rule.required then
    none
  else
    match typeFail value rule with
    | some e => some e
    | none =>
      match minFail (jsToString value) rule with
      | some e => some e
      | none =>
        match maxFail (jsToString value) rule with
        | some e => some e
        | none =>
          match lenFail (jsToString value) rule with
          | some e => some e
          | none => patternFail (jsToString value) rule

/-- The contribution of one rule object inside `validateField`'s loop
(validation.ts lines 24-49): a rule carrying a custom validator runs ONLY
the validator (truthy string results and thrown `Error` messages are
collected; falsy results and non-`Error` throws contribute nothing);
only a validator-less rule runs the built-in evaluation. -/
def ruleErrors (value : JSVal) (rule : Rule) : List String :=
  match rule.validator? with
  | some f =>
    match f value with
    | .ok (some s) => if s = "" then [] else [s]
    | .ok none => []
    | .threw (some m) => [m]
    | .threw none => []
  | none =>
    match validateBuiltinRule value rule with
    | some e => if e = "" then [] else [e]
    | none => []

/-- `validateField` (validation.ts lines 17-52): iterate the rules in
order, collecting every rule's contribution. -/
def validateField (value : JSVal) (rules : List Rule) : List String :=
  rules.foldl (fun errors rule => errors ++ ruleErrors value rule) []

/-- Modelled from the spec sentences behind claim C6: the list of error
messages of ALL failing built-in checks of one rule object, in the order
type, min, max, len, pattern, with the `required` short-circuit and the
empty-not-required skip, each failing check contributing `rule.message` if
present else its default message.  Used to compare the per-check-append
reading of the spec with the code's first-failure behavior. -/
def specBuiltinFailures (value : JSVal) (rule : Rule) : List String :=
  if rule.required ∧ isEmptyJS value then
    [msgOr rule.message? "This field is required"]
  else if isEmptyJS value ∧ ¬ rule.required then
    []
  else
    (typeFail value rule).toList ++ (minFail (jsToString value) rule).toList ++
    (maxFail (jsToString value) rule).toList ++ (lenFail (jsToString value) rule).toList ++
    (patternFail (jsToString value) rule).toList

/-! ## Field registry & store (`src/core/store.ts`, types from `types.ts`) -/

/-- `FieldState` (types.ts): per-field UI/validation state. -/
structure FieldState where
  touched : Bool := false
  active : Bool := false
  dirty : Bool := false
  visible : Bool := true
  disabled : Bool := false
  readOnly : Bool := false
  validating : Bool := false
  errors : List String := []
  warnings : List String := []
  deriving DecidableEq, Repr

/-- `isFormValid` (validation.ts lines 123-125):
`Object.values(fields).every(field => field.errors.length === 0)`.  It
receives a map of `FieldState`s — which carry no `isVoid` flag — and checks
EVERY field's error list. -/
def isFormValid (fields : List (String × FieldState)) : Bool :=
  fields.all (fun kv => kv.2.errors.length = 0)

/-- A field entry (types.ts `FieldEntry`): registry record keyed by address.
`state` is modelled as always present (the sources always supply it; the
store's `|| createInitialFieldState()` fallback is defensive only). -/
structure FieldEntry where
  address : String
  path : Option String := none
  isVoid : Bool := false
  transient : Bool := false
  rules : List Rule := []
  state : FieldState := {}
  defaultValue : JSVal := vUndef
  preserveValue : Bool := false
  mounted : Bool := false

/-- Form-level meta (types.ts / store.ts initial state). -/
structure FormMeta where
  submitting : Bool := false
  submitCount : Nat := 0
  validating : Bool := false
  dirty : Bool := false
  valid : Bool := true
  deriving DecidableEq, Repr

/-- The store's state: the values tree, its initial snapshot, the field
registry (insertion-ordered, unique addresses as in a JS object), and the
meta. -/
structure FormState where
  values : JSVal
  initialValues : JSVal
  fields : List (String × FieldEntry) := []
  meta : FormMeta := {}

/-- `state.fields[address]` lookup. -/
def lookupField (fields : List (String × FieldEntry)) (address : String) :
    Option FieldEntry :=
  match fields.find? (fun kv => kv.1 = address) with
  | some kv => some kv.2
  | none => none

/-- `state.fields[address] = entry`: replace the binding or append it. -/
def insertField (fields : List (String × FieldEntry)) (address : String)
    (entry : FieldEntry) : List (String × FieldEntry) :=
  match fields with
  | [] => [(address, entry)]
  | kv :: rest =>
    if kv.1 = address then (address, entry) :: rest
    else kv :: insertField rest address entry

/-- Mutate the entry at an address, if present (missing address: no-op). -/
def updateField (fields : List (String × FieldEntry)) (address : String)
    (f : FieldEntry → FieldEntry) : List (String × FieldEntry) :=
  match fields with
  | [] => []
  | kv :: rest =>
    if kv.1 = address then (kv.1, f kv.2) :: rest
    else kv :: updateField rest address f

/-- JS truthiness of a field's `path` (`string | null`): non-null and
non-empty. -/
def pathTruthy : Option String → Bool
  | some p => p ≠ ""
  | none => false

/-- The `existingValue` computed by `registerField` (store.ts lines
116-119): `existing?.path ? getNestedValue(state.values, existing.path) :
undefined` — the value looked up at the EXISTING entry's path, `undefined`
whenever no entry is registered at the address or its path is falsy. -/
def regExistingValue (st : FormState) (address : String) : JSVal :=
  match lookupField st.fields address with
  | some ex =>
    match ex.path with
    | some p => if p ≠ "" then getNestedValue st.values p else vUndef
    | none => vUndef
  | none => vUndef

/-- `registerField` (store.ts lines 113-132): store the entry with
`mounted = true`, keeping the existing entry's `state` when one is already
registered at the address; then seed `entry.defaultValue` through
`setNestedValue` when the entry has a defined `defaultValue`, a truthy
`path`, and `existingValue` is `undefined`.  A `setNestedValue` strict-mode
`TypeError` propagates out of the immer producer, discarding the whole
transaction (`Except.error` = store unchanged). -/
def registerField (st : FormState) (address : String) (entry : FieldEntry) :
    Except Unit FormState :=
  let existing := lookupField st.fields address
  let existingValue := regExistingValue st address
  let newEntry := { entry with
    state := (match existing with
      | some ex => ex.state
      | none => entry.state),
    mounted := true }
  let fields' := insertField st.fields address newEntry
  if ¬ entry.defaultValue.isUndef ∧ pathTruthy entry.path ∧ existingValue.isUndef then
    match entry.path with
    | some p =>
      match setNestedValue st.values p entry.defaultValue with
      | .ok values' => .ok { st with fields := fields', values := values' }
      | .error e => .error e
    | none => .ok { st with fields := fields' }
  else .ok { st with fields := fields' }

/-- `updateFormValid` (store.ts lines 365-369): `meta.valid` is true iff
every entry `isVoid || state.errors.length === 0`. -/
def updateFormValid (st : FormState) : FormState :=
  { st with meta := { st.meta with
      valid := st.fields.all (fun kv => kv.2.isVoid || kv.2.state.errors.length = 0) } }

/-- `setFieldErrors` (store.ts lines 168-176): replace the entry's
`errors`, clear its `validating`, then recompute `meta.valid` (the
recomputation runs even for an unknown address). -/
def setFieldErrors (st : FormState) (address : String) (errors : List String) :
    FormState :=
  let fields' := updateField st.fields address
    (fun e => { e with state := { e.state with errors := errors, validating := false } })
  updateFormValid { st with fields := fields' }

/-- `clearFieldErrors` (store.ts lines 178-192): clear one or all error
lists, then recompute `meta.valid`. -/
def clearFieldErrors (st : FormState) (address? : Option String) : FormState :=
  let fields' :=
    match address? with
    | some address =>
      updateField st.fields address
        (fun e => { e with state := { e.state with errors := [] } })
    | none =>
      st.fields.map
        (fun kv => (kv.1, { kv.2 with state := { kv.2.state with errors := [] } }))
  updateFormValid { st with fields := fields' }

/-- `setSubmitting` (store.ts lines 196-199). -/
def setSubmitting (st : FormState) (submitting : Bool) : FormState :=
  { st with meta := { st.meta with submitting := submitting } }

/-- `incrementSubmitCount` (store.ts lines 201-204). -/
def incrementSubmitCount (st : FormState) : FormState :=
  { st with meta := { st.meta with submitCount := st.meta.submitCount + 1 } }

/-! ## Form instance façade (`src/core/createForm.ts`) -/

/-- `getSubmitValues` (createForm.ts lines 142-151): shallow-copy
`state.values` (identity in a value model — the source never mutates below
the top level), then for every entry with `entry.transient && entry.path`
call the LOCAL `deleteNestedValueForm` helper on the copy. -/
def getSubmitValues (st : FormState) : JSVal :=
  st.fields.foldl (fun values kv =>
    if kv.2.transient ∧ pathTruthy kv.2.path then
      deleteNestedValueForm values (kv.2.path.getD "")
    else values) st.values

/-- One iteration of `validate()`'s all-fields loop (createForm.ts lines
218-240): read the field's value at `entry.path || addr`, run
`validateField`, write the result with `setFieldErrors`, and clear
`allValid` when errors were produced. -/
def validateAllStep (values : JSVal) (acc : FormState × Bool) (addr : String)
    (entry : FieldEntry) : FormState × Bool :=
  let p := match entry.path with
    | some p => if p ≠ "" then p else addr
    | none => addr
  let value := formGetFieldValue values (some p)
  let errors := validateField value entry.rules
  (setFieldErrors acc.1 addr errors, acc.2 && errors.length = 0)

/-- `validate()` with no address (createForm.ts lines 217-240): validate
every non-void field of the snapshot taken at entry, writing each field's
errors individually, and return the conjunction. -/
def formValidateAll (st : FormState) : FormState × Bool :=
  (st.fields.filter (fun kv => ¬ kv.2.isVoid)).foldl
    (fun acc kv => validateAllStep st.values acc kv.1 kv.2) (st, true)

/-- Behavior of the `onSubmit` callback passed to `submit`: it either
returns normally or throws an `Error` with the given message. -/
inductive OnSubmitB where
  | ok
  | throws (msg : String)

/-- Observable outcome of one `submit` call: the final store state, the
`success` flag of the returned object, whether `onSubmit` was invoked, the
error (if any) propagated to `submit`'s caller, and the message (if any)
passed to `console.error` by the `catch` block. -/
structure SubmitOutcome where
  state : FormState
  success : Bool
  invoked : Bool
  propagated : Option String
  logged : Option String

/-- `submit` (createForm.ts lines 247-271): validate the whole form; when
invalid, return `success: false` without touching `submitting` or
`submitCount` and without invoking `onSubmit`; when valid, set
`submitting = true`, increment `submitCount`, invoke
`onSubmit(getSubmitValues())` inside `try { … } catch (e) {
console.error('Submit error:', e) }` — so a thrown error is LOGGED AND
SWALLOWED, never rethrown — then set `submitting = false` and return
`success: true`. -/
def submit (st : FormState) (onSubmit? : Option OnSubmitB) : SubmitOutcome :=
  let validated := formValidateAll st
  if ¬ validated.2 then
    { state := validated.1, success := false, invoked := false,
      propagated := none, logged := none }
  else
    let st2 := incrementSubmitCount (setSubmitting validated.1 true)
    let invokedLogged : Bool × Option String :=
      match onSubmit? with
      | none => (false, none)
      | some .ok => (true, none)
      | some (.throws m) => (true, some m)
    let st3 := setSubmitting st2 false
    { state := st3, success := true, invoked := invokedLogged.1,
      propagated := none, logged := invokedLogged.2 }

/-! ## Array operations (`src/core/array.ts`) -/

/-- `Array.prototype.splice` start-index clamping: negative indices count
from the end (clamped at 0), positive ones are clamped at the length. -/
def spliceStart (len : Nat) (start : Int) : Nat :=
  if start < 0 then ((len : Int) + start).toNat else min start.toNat len

/-- `arr.splice(start, 1)`: the (zero- or one-element) list of removed
elements, and the array after removal. -/
def spliceRemove1 (l : List JSVal) (start : Int) : List JSVal × List JSVal :=
  let a := spliceStart l.length start
  ((l.drop a).take 1, l.take a ++ l.drop (a + 1))

/-- `arr.splice(start, 0, item)`: insert at the clamped position. -/
def spliceInsert (l : List JSVal) (start : Int) (item : JSVal) : List JSVal :=
  let a := spliceStart l.length start
  l.take a ++ item :: l.drop a

/-- `moveItem` (array.ts lines 9-17).  No bounds check: when `from` is out
of range `splice(from, 1)` removes nothing, destructuring makes `removed`
`undefined`, and `splice(to, 0, removed)` inserts that `undefined` into the
array. -/
def moveItem (arr : List JSVal) (from_ to_ : Int) : List JSVal :=
  if from_ = to_ then arr
  else
    let spliced := spliceRemove1 arr from_
    spliceInsert spliced.2 to_ (spliced.1.headD vUndef)

/-- `insertItem` (array.ts lines 22-26).  No bounds check: `splice` clamps
the index, so out-of-range indices insert at an end. -/
def insertItem (arr : List JSVal) (index : Int) (item : JSVal) : List JSVal :=
  spliceInsert arr index item

/-- `removeItem` (array.ts lines 31-37): guarded — an out-of-range index
returns the array unchanged. -/
def removeItem (arr : List JSVal) (index : Int) : List JSVal :=
  if index < 0 ∨ (arr.length : Int) ≤ index then arr
  else (spliceRemove1 arr index).2

/-- Array element read `result[i]` with a number index: out of range (or
negative) reads `undefined`. -/
def jsIndexRead (l : List JSVal) (i : Int) : JSVal :=
  if 0 ≤ i then arrGet l i.toNat else vUndef

/-- Array element write `result[i] = v` with a number index: in range
replaces, past the end extends with holes; a negative index stores a
non-index property which the model drops (never read back by the code). -/
def jsIndexAssign (l : List JSVal) (i : Int) (v : JSVal) : List JSVal :=
  if 0 ≤ i then arrSet l i.toNat v else l

/-- `swapItems` (array.ts lines 42-51).  No bounds check: an out-of-range
index reads `undefined` and writes extend the array with holes. -/
def swapItems (arr : List JSVal) (from_ to_ : Int) : List JSVal :=
  if from_ = to_ then arr
  else
    let temp := jsIndexRead arr from_
    let l1 := jsIndexAssign arr from_ (jsIndexRead arr to_)
    jsIndexAssign l1 to_ temp

/-- `updateItem` (array.ts lines 56-63): guarded — an out-of-range index
returns the array unchanged. -/
def updateItem (arr : List JSVal) (index : Int)
    (updater : JSVal → Int → JSVal) : List JSVal :=
  if index < 0 ∨ (arr.length : Int) ≤ index then arr
  else arr.set index.toNat (updater (arrGet arr index.toNat) index)

/-! ## Concrete fixtures used by the claim theorems and witnesses -/

/-- Values `{ a: { b: 1, c: 2 } }` with one transient field whose data path
is the nested `a.b`. -/
def transientState : FormState :=
  { values := vObj [("a", vObj [("b", vNum 1), ("c", vNum 2)])],
    initialValues := vObj [],
    fields := [("f", { address := "f", path := some "a.b", transient := true })] }

/-- A form with a single rule-less (hence always-valid) data field. -/
def validOneFieldState : FormState :=
  { values := vObj [],
    initialValues := vObj [],
    fields := [("u", { address := "u", path := some "u" })] }

/-- A void field currently carrying an error. -/
def voidErrorEntry : FieldEntry :=
  { address := "voidField", path := none, isVoid := true,
    state := { errors := ["This should be ignored"] } }

/-- A form whose only field is a void field with an error. -/
def voidErrorState : FormState :=
  { values := vObj [],
    initialValues := vObj [],
    fields := [("voidField", voidErrorEntry)] }

/-- An already-registered entry with touched/dirty state and an error. -/
def priorEntry : FieldEntry :=
  { address := "username", path := some "username",
    state := { touched := true, dirty := true, errors := ["Error"] } }

/-- A store in which `priorEntry` is registered at `"username"`. -/
def reRegisterState : FormState :=
  { values := vObj [("username", vStr "")],
    initialValues := vObj [],
    fields := [("username", priorEntry)] }

/-- A freshly-declared entry for the same address, with pristine state. -/
def freshEntry : FieldEntry :=
  { address := "username", path := some "username" }

/-- A store whose value tree already holds `"John"` at `username`, with no
field registered yet. -/
def seededState : FormState :=
  { values := vObj [("username", vStr "John")],
    initialValues := vObj [] }

/-- An entry declaring a `defaultValue` for the occupied `username` path. -/
def defaultEntry : FieldEntry :=
  { address := "username", path := some "username",
    defaultValue := vStr "Default" }

/-- A single rule object with two built-in constraints that BOTH fail on
the string `"ab"`: `min: 5` and an always-failing `pattern`. -/
def minAndPatternRule : Rule :=
  { min? := some 5, pattern? := some (fun _ => false) }

/-- A custom validator that always reports one error string. -/
def customValidator : JSVal → ValidatorResult :=
  fun _ => .ok (some "custom error")

/-- A rule object declaring built-in constraints (that the empty string
violates) AND a custom validator. -/
def builtinsAndValidatorRule : Rule :=
  { type? := some .string, required := true, min? := some 3,
    validator? := some customValidator }

/-! ## Helper lemmas -/

/-- Looking up the address just written by `insertField` yields the new
entry. -/
theorem lookupField_insertField (fields : List (String × FieldEntry))
    (address : String) (entry : FieldEntry) :
    lookupField (insertField fields address entry) address = some entry := by
  induction fields with
  | nil => simp [insertField, lookupField, List.find?]
  | cons kv rest ih =>
    by_cases h : kv.1 = address
    · simp [insertField, h, lookupField, List.find?]
    · simpa [insertField, h, lookupField, List.find?] using ih

/-- `rule.message || default` is never the empty string when the default is
not. -/
theorem msgOr_ne_empty (m : Option String) (d : String) (hd : d ≠ "") :
    msgOr m d ≠ "" := by
  unfold msgOr
  cases m with
  | none => exact hd
  | some s =>
    show (if s = "" then d else s) ≠ ""
    split_ifs with hs
    · exact hd
    · exact hs

/-- A string with a non-empty literal prefix is non-empty. -/
theorem prefixed_ne_empty (p x q : String) (hp : p.length ≠ 0) :
    (p ++ x ++ q) ≠ "" := by
  intro h
  have hlen := congrArg String.length h
  simp only [String.length_append] at hlen
  have : String.length "" = 0 := rfl
  omega

/-- A failing type check always carries a non-empty message. -/
theorem typeFail_ne_empty (v : JSVal) (r : Rule) (s : String)
    (h : typeFail v r = some s) : s ≠ "" := by
  unfold typeFail at h
  split at h <;> try split at h
  all_goals first
    | exact Option.noConfusion h
    | (injection h with h'
       subst h'
       exact msgOr_ne_empty _ _ (by decide))

/-- A failing `min` check always carries a non-empty message. -/
theorem minFail_ne_empty (sv : String) (r : Rule) (s : String)
    (h : minFail sv r = some s) : s ≠ "" := by
  unfold minFail at h
  split at h <;> try split at h
  all_goals first
    | exact Option.noConfusion h
    | (injection h with h'
       subst h'
       exact msgOr_ne_empty _ _ (prefixed_ne_empty _ _ _ (by decide)))

/-- A failing `max` check always carries a non-empty message. -/
theorem maxFail_ne_empty (sv : String) (r : Rule) (s : String)
    (h : maxFail sv r = some s) : s ≠ "" := by
  unfold maxFail at h
  split at h <;> try split at h
  all_goals first
    | exact Option.noConfusion h
    | (injection h with h'
       subst h'
       exact msgOr_ne_empty _ _ (prefixed_ne_empty _ _ _ (by decide)))

/-- A failing `len` check always carries a non-empty message. -/
theorem lenFail_ne_empty (sv : String) (r : Rule) (s : String)
    (h : lenFail sv r = some s) : s ≠ "" := by
  unfold lenFail at h
  split at h <;> try split at h
  all_goals first
    | exact Option.noConfusion h
    | (injection h with h'
       subst h'
       exact msgOr_ne_empty _ _ (prefixed_ne_empty _ _ _ (by decide)))

/-- A failing `pattern` check always carries a non-empty message. -/
theorem patternFail_ne_empty (sv : String) (r : Rule) (s : String)
    (h : patternFail sv r = some s) : s ≠ "" := by
  unfold patternFail at h
  split at h <;> try split at h
  all_goals first
    | exact Option.noConfusion h
    | (injection h with h'
       subst h'
       exact msgOr_ne_empty _ _ (by decide))

/-- One validation step never touches `meta.submitting`/`meta.submitCount`
(`setFieldErrors` only rewrites the entry and `meta.valid`). -/
theorem validateAllStep_meta (values : JSVal) (acc : FormState × Bool)
    (addr : String) (entry : FieldEntry) :
    (validateAllStep values acc addr entry).1.meta.submitting = acc.1.meta.submitting ∧
    (validateAllStep values acc addr entry).1.meta.submitCount = acc.1.meta.submitCount :=
  ⟨rfl, rfl⟩

/-- The whole validation loop never touches
`meta.submitting`/`meta.submitCount`. -/
theorem validateAllFold_meta (values : JSVal) :
    ∀ (l : List (String × FieldEntry)) (acc : FormState × Bool),
      ((l.foldl (fun a kv => validateAllStep values a kv.1 kv.2) acc).1.meta.submitting
        = acc.1.meta.submitting) ∧
      ((l.foldl (fun a kv => validateAllStep values a kv.1 kv.2) acc).1.meta.submitCount
        = acc.1.meta.submitCount) := by
  intro l
  induction l with
  | nil => intro acc; exact ⟨rfl, rfl⟩
  | cons kv rest ih =>
    intro acc
    have h := ih (validateAllStep values acc kv.1 kv.2)
    have hstep := validateAllStep_meta values acc kv.1 kv.2
    simp only [List.foldl_cons]
    exact ⟨h.1.trans hstep.1, h.2.trans hstep.2⟩

/-- `validate()` (all fields) never touches
`meta.submitting`/`meta.submitCount`. -/
theorem formValidateAll_meta (st : FormState) :
    (formValidateAll st).1.meta.submitting = st.meta.submitting ∧
    (formValidateAll st).1.meta.submitCount = st.meta.submitCount := by
  unfold formValidateAll
  exact validateAllFold_meta st.values _ (st, true)


/-! ## Additional helper lemmas for the delete claims -/

/-- Removing an absent key leaves the object unchanged. -/
theorem objRemoveKey_of_not_has (fields : List (String × JSVal)) (key : String)
    (h : objHasKey fields key = false) : objRemoveKey fields key = fields := by
  induction fields with
  | nil => rfl
  | cons kv rest ih =>
    simp only [objHasKey, List.any_cons, Bool.or_eq_false_iff] at h
    simp only [objRemoveKey, List.filter_cons]
    rw [if_pos (by simpa using h.1)]
    have := ih (by simpa [objHasKey] using h.2)
    simp only [objRemoveKey] at this ⊢
    rw [this]

/-- After removing a key, the key is gone. -/
theorem objHasKey_removeKey (fields : List (String × JSVal)) (key : String) :
    objHasKey (objRemoveKey fields key) key = false := by
  induction fields with
  | nil => rfl
  | cons kv rest ih =>
    by_cases hk : kv.1 = key
    · simp only [objRemoveKey, List.filter_cons, hk] at ih ⊢
      simp only [decide_eq_true_eq] at *
      rw [if_neg (by simp [hk])]
      exact ih
    · simp only [objRemoveKey, objHasKey, List.filter_cons] at ih ⊢
      rw [if_pos (by simp [hk])]
      simp only [List.any_cons, Bool.or_eq_false_iff]
      exact ⟨by simp [hk], ih⟩

/-! ## Claim theorems -/

/-- C1: the spec claims `getSubmitValues()` returns a clone of `values`
with exactly the transient non-void fields' data paths deleted, every
non-transient path keeping its value.  On `transientState` (one transient
field at the nested path `a.b`) the local delete helper of createForm.ts
instead deletes the TOP-LEVEL keys named by each segment (`a` and `b`), so
the whole subtree — including the non-transient path `a.c`, whose value is
`2` — disappears and the result is `{}`. -/
theorem c1_getSubmitValues_deletes_top_level_keys :
    getSubmitValues transientState = vObj [] ∧
    getPath transientState.values "a.c" = vNum 2 ∧
    getPath (getSubmitValues transientState) "a.c" = vUndef := by
  exact ⟨rfl, rfl, rfl⟩

/-- C2 counterexample: on a form that validates, a throwing `onSubmit` IS
invoked, but no error propagates out of `submit` — the `catch` block logs
it and `submit` resolves — refuting the claim that the error reaches
`submit`'s caller. -/
theorem c2_submit_error_not_propagated :
    (submit validOneFieldState (some (.throws "boom"))).invoked = true ∧
    (submit validOneFieldState (some (.throws "boom"))).propagated = none ∧
    (submit validOneFieldState (some (.throws "boom"))).logged = some "boom" ∧
    (submit validOneFieldState (some (.throws "boom"))).success = true := by
  exact ⟨rfl, rfl, rfl, rfl⟩

/-- C2 (amended): `submit(onSubmit)` first validates the whole form; if
validation fails it returns without invoking `onSubmit` and without
changing `meta.submitting` or `meta.submitCount`; if validation passes and
`onSubmit` throws, the error is CAUGHT AND LOGGED inside `submit` (nothing
propagates to the caller), and `meta.submitting` is false afterwards — the
form is never left stuck in the submitting state. -/
theorem c2_submit_control_flow (st : FormState) (onSub : Option OnSubmitB) :
    (submit st onSub).propagated = none ∧
    ((formValidateAll st).2 = false →
      (submit st onSub).invoked = false ∧
      (submit st onSub).success = false ∧
      (submit st onSub).state.meta.submitting = st.meta.submitting ∧
      (submit st onSub).state.meta.submitCount = st.meta.submitCount) ∧
    ((formValidateAll st).2 = true →
      (submit st onSub).success = true ∧
      (submit st onSub).state.meta.submitting = false ∧
      (submit st onSub).state.meta.submitCount = st.meta.submitCount + 1) ∧
    (∀ m, (formValidateAll st).2 = true → onSub = some (.throws m) →
      (submit st onSub).invoked = true ∧ (submit st onSub).logged = some m) := by
  have hmeta := formValidateAll_meta st
  by_cases hv : (formValidateAll st).2
  · refine ⟨by simp [submit, hv], ?_, ?_, ?_⟩
    · intro hfalse
      rw [hv] at hfalse
      cases hfalse
    · intro _
      refine ⟨by simp [submit, hv], by simp [submit, hv, setSubmitting], ?_⟩
      simp [submit, hv, setSubmitting, incrementSubmitCount]
      exact hmeta.2
    · intro m _ hthrow
      subst hthrow
      exact ⟨by simp [submit, hv], by simp [submit, hv]⟩
  · rw [Bool.not_eq_true] at hv
    refine ⟨by simp [submit, hv], ?_, ?_, ?_⟩
    · intro _
      exact ⟨by simp [submit, hv], by simp [submit, hv],
        by simp [submit, hv]; exact hmeta.1, by simp [submit, hv]; exact hmeta.2⟩
    · intro htrue
      rw [hv] at htrue
      cases htrue
    · intro m htrue _
      rw [hv] at htrue
      cases htrue

/-- C2 witness: the control-flow theorem instantiated on a concrete valid
form with a throwing `onSubmit`. -/
theorem c2_submit_control_flow_witness :
    (formValidateAll validOneFieldState).2 = true ∧
    (submit validOneFieldState (some (.throws "pow"))).state.meta.submitting = false ∧
    (submit validOneFieldState (some (.throws "pow"))).logged = some "pow" := by
  have h := c2_submit_control_flow validOneFieldState (some (.throws "pow"))
  have hval : (formValidateAll validOneFieldState).2 = true := by rfl
  exact ⟨hval, (h.2.2.1 hval).2.1, (h.2.2.2 "pow" hval rfl).2⟩

/-- C3: the spec claims form validity — `isFormValid(fields)` as well as
the recomputed `meta.valid` — ignores void-field errors.  On a field map
whose only entry is a void field carrying an error, the store's
`updateFormValid` ignores it as claimed, but `isFormValid` (which receives
bare `FieldState`s, with no `isVoid` flag to consult) checks every error
list and returns `false` — contradicting the claim and the code's own test
"should ignore void fields with errors". -/
theorem c3_isFormValid_counts_void_errors :
    isFormValid [("voidField", voidErrorEntry.state)] = false ∧
    (updateFormValid voidErrorState).meta.valid = true ∧
    voidErrorEntry.isVoid = true ∧
    voidErrorEntry.state.errors ≠ [] := by
  refine ⟨rfl, rfl, rfl, by decide⟩

/-- C4: re-registering at an address that already has an entry stores the
new entry with the EXISTING entry's `state` object — the state declared on
the new entry is discarded — and sets `mounted = true`. -/
theorem c4_registerField_preserves_existing_state (st : FormState)
    (addr : String) (entry ex : FieldEntry) (st' : FormState)
    (hex : lookupField st.fields addr = some ex)
    (hreg : registerField st addr entry = .ok st') :
    lookupField st'.fields addr =
      some { entry with state := ex.state, mounted := true } := by
  simp only [registerField, hex] at hreg
  split at hreg
  · split at hreg
    · split at hreg
      · cases hreg
        exact lookupField_insertField _ _ _
      · exact Except.noConfusion hreg
    · cases hreg
      exact lookupField_insertField _ _ _
  · cases hreg
    exact lookupField_insertField _ _ _

/-- C4 witness: re-registering `freshEntry` (pristine state) over
`priorEntry` (touched, dirty, one error) keeps the prior state and sets
`mounted`. -/
theorem c4_registerField_preserves_existing_state_witness :
    registerField reRegisterState "username" freshEntry =
      .ok { reRegisterState with
        fields := [("username",
          { freshEntry with state := priorEntry.state, mounted := true })] } ∧
    lookupField
      ({ reRegisterState with
        fields := [("username",
          { freshEntry with state := priorEntry.state, mounted := true })] } : FormState).fields
      "username" = some { freshEntry with state := priorEntry.state, mounted := true } := by
  refine ⟨rfl, ?_⟩
  exact c4_registerField_preserves_existing_state reRegisterState "username"
    freshEntry priorEntry _ rfl rfl

/-- C5 counterexample: registering `defaultEntry` at a fresh address whose
target path already holds `"John"` overwrites that value with the declared
default — refuting "when the target data path already holds a value, the
value tree is left unchanged by registration". -/
theorem c5_registerField_overwrites_existing_value :
    getNestedValue seededState.values "username" = vStr "John" ∧
    registerField seededState "username" defaultEntry =
      .ok { seededState with
        values := vObj [("username", vStr "Default")],
        fields := [("username", { defaultEntry with mounted := true })] } := by
  exact ⟨rfl, rfl⟩

/-- C5 (amended): `registerField` seeds `entry.defaultValue` at
`entry.path` exactly when the entry carries a defined default, a truthy
path, and `existingValue` — the value at the PREVIOUSLY REGISTERED entry's
path, vacuously `undefined` when no entry exists at the address — is
`undefined`; in particular a first registration always seeds, overwriting
whatever the tree holds at `entry.path`.  In every other case the values
tree is unchanged. -/
theorem c5_registerField_seed_condition (st : FormState) (addr : String)
    (entry : FieldEntry) (st' : FormState)
    (hreg : registerField st addr entry = .ok st') :
    ((entry.defaultValue.isUndef = true ∨ pathTruthy entry.path = false ∨
        (regExistingValue st addr).isUndef = false) →
      st'.values = st.values) ∧
    (∀ p, entry.path = some p → entry.defaultValue.isUndef = false →
        pathTruthy entry.path = true →
        (regExistingValue st addr).isUndef = true →
      setNestedValue st.values p entry.defaultValue = .ok st'.values) := by
  simp only [registerField] at hreg
  split at hreg
  · rename_i hcond
    constructor
    · intro hdisj
      rcases hdisj with h1 | h1 | h1
      · exact absurd h1 (by simpa using hcond.1)
      · exact absurd hcond.2.1 (by simp [h1])
      · exact absurd hcond.2.2 (by simp [h1])
    · intro p hp _ _ _
      rw [hp] at hreg
      dsimp only at hreg
      cases hsn : setNestedValue st.values p entry.defaultValue with
      | ok values' =>
        rw [hsn] at hreg
        cases hreg
        rfl
      | error e =>
        rw [hsn] at hreg
        exact Except.noConfusion hreg
  · rename_i hcond
    cases hreg
    constructor
    · intro _
      rfl
    · intro p hp hdef htruthy hexist
      exact absurd ⟨by simp [hdef], htruthy, hexist⟩ hcond

/-- C5 witness: the seed-condition theorem instantiated on the concrete
overwrite scenario. -/
theorem c5_registerField_seed_condition_witness :
    setNestedValue seededState.values "username" (vStr "Default") =
      .ok (vObj [("username", vStr "Default")]) := by
  have h := c5_registerField_seed_condition seededState "username" defaultEntry
    { seededState with
      values := vObj [("username", vStr "Default")],
      fields := [("username", { defaultEntry with mounted := true })] } rfl
  exact h.2 "username" rfl rfl rfl rfl

/-- C6 counterexample: on the value `"ab"` BOTH constraints of
`minAndPatternRule` fail (`min: 5` and the always-failing `pattern`), so
the claim predicts one error string per failing check (two); the code
yields only the first failing check's message. -/
theorem c6_one_error_per_rule_not_per_check :
    validateField (vStr "ab") [minAndPatternRule] =
      ["This field must be at least 5 characters"] ∧
    specBuiltinFailures (vStr "ab") minAndPatternRule =
      ["This field must be at least 5 characters", "This field format is invalid"] := by
  exact ⟨rfl, rfl⟩

/-- C6 (amended): for a validator-less rule, the built-in checks run in
the claimed order — `required` (short-circuit), empty-skip, `type`, `min`,
`max`, `len`, `pattern` — with the claimed messages, but the rule stops at
its FIRST failing check: `validateField` on the single rule yields exactly
the first element of the list of all failing checks' messages. -/
theorem c6_builtin_first_failure (v : JSVal) (r : Rule)
    (h : r.validator? = none) :
    validateField v [r] = (specBuiltinFailures v r).take 1 := by
  have hv : validateField v [r] =
      (match validateBuiltinRule v r with
       | some e => if e = "" then [] else [e]
       | none => []) := by
    simp [validateField, ruleErrors, h]
  rw [hv]
  unfold validateBuiltinRule specBuiltinFailures
  split_ifs with h1 h2
  · have hne := msgOr_ne_empty r.message? "This field is required" (by decide)
    simp [hne]
  · rfl
  · cases h3 : typeFail v r with
    | some s =>
      have hs := typeFail_ne_empty v r s h3
      simp [hs, Option.toList]
    | none =>
      cases h4 : minFail (jsToString v) r with
      | some s =>
        have hs := minFail_ne_empty (jsToString v) r s h4
        simp [hs, Option.toList]
      | none =>
        cases h5 : maxFail (jsToString v) r with
        | some s =>
          have hs := maxFail_ne_empty (jsToString v) r s h5
          simp [hs, Option.toList]
        | none =>
          cases h6 : lenFail (jsToString v) r with
          | some s =>
            have hs := lenFail_ne_empty (jsToString v) r s h6
            simp [hs, Option.toList]
          | none =>
            cases h7 : patternFail (jsToString v) r with
            | some s =>
              have hs := patternFail_ne_empty (jsToString v) r s h7
              simp [hs, Option.toList]
            | none => simp

/-- C6 witness: the first-failure theorem instantiated on the concrete
two-failing-checks rule. -/
theorem c6_builtin_first_failure_witness :
    validateField (vStr "ab") [minAndPatternRule] =
      (specBuiltinFailures (vStr "ab") minAndPatternRule).take 1 :=
  c6_builtin_first_failure (vStr "ab") minAndPatternRule rfl

/-- C7 counterexample: `moveItem` on a two-element array with the
out-of-range source index 5 does NOT return the original array — it
inserts an `undefined` element that was never in the input (the array even
changes length). -/
theorem c7_moveItem_out_of_range_corrupts :
    moveItem [vNum 1, vNum 2] 5 0 = [vUndef, vNum 1, vNum 2] ∧
    (moveItem [vNum 1, vNum 2] 5 0).length ≠
      ([vNum 1, vNum 2] : List JSVal).length := by
  refine ⟨rfl, by decide⟩

/-- C7 (amended): the two bounds-checked operations — `removeItem` and
`updateItem` — return the original array unchanged on every out-of-range
index (all five operations are total and never throw); `moveItem`,
`insertItem` and `swapItems` perform no bounds check and can insert
`undefined` or extend the array on out-of-range indices. -/
theorem c7_guarded_array_ops_noop (l : List JSVal) (i : Int)
    (f : JSVal → Int → JSVal) (h : i < 0 ∨ (l.length : Int) ≤ i) :
    removeItem l i = l ∧ updateItem l i f = l := by
  unfold removeItem updateItem
  rw [if_pos h, if_pos h]
  exact ⟨rfl, rfl⟩

/-- C7 witness: the guarded operations at the out-of-range index 5 on a
singleton array. -/
theorem c7_guarded_array_ops_noop_witness :
    removeItem [vNum 7] 5 = [vNum 7] ∧
    updateItem [vNum 7] 5 (fun v _ => v) = [vNum 7] :=
  c7_guarded_array_ops_noop [vNum 7] 5 (fun v _ => v) (by decide)

/-- C8 counterexample: deleting `items.0` from `{ items: [1, 2] }` with
`deletePath` returns `true` but leaves a TWO-element array with an
`undefined` hole at index 0 — plain `delete`, no splicing — while the
claim predicts the spliced `[2]`; the store-internal `deleteNestedValue`
is the function that splices (and it returns nothing). -/
theorem c8_deletePath_no_splice :
    deletePath (vObj [("items", vArr [vNum 1, vNum 2])]) "items.0" =
      (true, vObj [("items", vArr [vUndef, vNum 2])]) ∧
    deleteNestedValue (vObj [("items", vArr [vNum 1, vNum 2])]) "items.0" =
      vObj [("items", vArr [vNum 2])] ∧
    ([vUndef, vNum 2] : List JSVal).length ≠ ([vNum 2] : List JSVal).length := by
  refine ⟨rfl, rfl, by decide⟩

/-- C8 (amended): at the terminal key `deletePath` performs a plain
JavaScript `delete` on BOTH container kinds — removing an object key, but
turning an in-range array index into an `undefined` hole of unchanged
length — and returns `true` exactly when the terminal key was present in
the parent; the store-internal `deleteNestedValue` is the variant that
splices arrays (shifting later indices down, shrinking the length by one)
and removes object keys, and it returns nothing. -/
theorem c8_delete_terminal_behavior :
    (∀ (fields : List (String × JSVal)) (key : String),
      deletePathGo (vObj fields) [key] =
        (objHasKey fields key, vObj (objRemoveKey fields key)) ∧
      objHasKey (objRemoveKey fields key) key = false) ∧
    (∀ (items : List JSVal) (s : String) (i : Nat),
      parseIndex s = some i → i < items.length →
      deletePathGo (vArr items) [s] = (true, vArr (items.set i vUndef)) ∧
      (items.set i vUndef).length = items.length) ∧
    (∀ (items : List JSVal) (s : String) (i : Int),
      parseIntJS s = some i → 0 ≤ i → i.toNat < items.length →
      deleteNestedGo (vArr items) [s] = vArr (items.eraseIdx i.toNat) ∧
      (items.eraseIdx i.toNat).length = items.length - 1) := by
  refine ⟨?_, ?_, ?_⟩
  · intro fields key
    constructor
    · by_cases hk : objHasKey fields key
      · simp [deletePathGo, jsHasProp, jsDeleteProp, JSVal.isContainer, hk]
      · rw [Bool.not_eq_true] at hk
        simp [deletePathGo, jsHasProp, JSVal.isContainer, hk,
          objRemoveKey_of_not_has fields key hk]
    · exact objHasKey_removeKey fields key
  · intro items s i hs hi
    constructor
    · simp [deletePathGo, jsHasProp, jsDeleteProp, JSVal.isContainer, hs, hi]
    · simp
  · intro items s i hs h0 hi
    constructor
    · simp [deleteNestedGo, hs, h0, hi]
    · exact List.length_eraseIdx_of_lt hi

/-- C8 witness: the terminal-behavior theorem instantiated on a one-key
object and a two-element array at index `"0"`. -/
theorem c8_delete_terminal_behavior_witness :
    deletePathGo (vObj [("name", vStr "John")]) ["name"] = (true, vObj []) ∧
    deletePathGo (vArr [vNum 1, vNum 2]) ["0"] = (true, vArr [vUndef, vNum 2]) ∧
    deleteNestedGo (vArr [vNum 1, vNum 2]) ["0"] = vArr [vNum 2] := by
  have h := c8_delete_terminal_behavior
  exact ⟨(h.1 [("name", vStr "John")] "name").1,
    (h.2.1 [vNum 1, vNum 2] "0" 0 rfl (by decide)).1,
    (h.2.2 [vNum 1, vNum 2] "0" 0 rfl (by decide) (by decide)).1⟩

/-- C9: the claim says `get(set(obj, path, v), path) == v` holds for ALL
objects, a primitive intermediate being clobbered with a fresh container
"rather than causing an error".  With `obj = { a: 5 }` and path `a.b` the
path-conflict branch of `setPath` assigns onto the primitive itself — a
strict-mode `TypeError` — so `setPath` throws and nothing can be read
back; the same write through a container intermediate does round-trip. -/
theorem c9_setPath_throws_on_primitive_intermediate :
    setPath (vObj [("a", vNum 5)]) "a.b" (vNum 1) = .error () ∧
    setPath (vObj [("a", vObj [])]) "a.b" (vNum 1) =
      .ok (vObj [("a", vObj [("b", vNum 1)])]) ∧
    getPath (vObj [("a", vObj [("b", vNum 1)])]) "a.b" = vNum 1 := by
  exact ⟨rfl, rfl, rfl⟩

/-- C10: when a rule object carries a custom validator, `validateField`
runs ONLY that validator for the rule: its outcome coincides with that of
a rule declaring nothing but the same validator, so the built-in
constraints declared alongside (`required`, `type`, `min`, `max`, `len`,
`pattern`, `message`) have no effect. -/
theorem c10_validator_skips_builtins (v : JSVal) (r : Rule)
    (f : JSVal → ValidatorResult) (h : r.validator? = some f) :
    validateField v [r] = validateField v [({ validator? := some f } : Rule)] := by
  simp [validateField, ruleErrors, h]

/-- C10 witness: a rule with `required`, `type` and `min` constraints (all
violated by the empty string) plus a custom validator contributes exactly
the validator's message. -/
theorem c10_validator_skips_builtins_witness :
    validateField (vStr "") [builtinsAndValidatorRule] =
      validateField (vStr "") [({ validator? := some customValidator } : Rule)] ∧
    validateField (vStr "") [builtinsAndValidatorRule] = ["custom error"] := by
  refine ⟨c10_validator_skips_builtins (vStr "") builtinsAndValidatorRule
    customValidator rfl, rfl⟩

end ZustForm
